import Mathlib

/-!
Shallow embedding of the `libcurl` Python binding (package `libcurl`,
compiled extension `cylibcurl`) and verification of its specification.

The repository ships the package `__init__.py` and the test suite; the
compiled extension module `cylibcurl` that defines `Curl` and
`CurlResponse` is not part of the source tree, so its behaviour is
modelled from the specification, as marked on each definition.
-/

namespace Libcurl

/-- Modelled from the spec: the `Response` value object of the missing
`cylibcurl` extension module (exposed as `CurlResponse`). It holds
`status_code` (a non-negative integer), `data` (a raw byte sequence,
each byte in `0..255`), and `headers` (a mapping from string keys to
string values, kept here as an association list in insertion order). -/
structure CurlResponse where
  status_code : Nat
  data : List Nat
  headers : List (String × String)
deriving Repr, DecidableEq

/-- Modelled from the spec: the constructor
`CurlResponse(status_code, data, headers)`, where `headers` is optional
and defaults to the empty mapping. -/
def makeResponse (status_code : Nat) (data : List Nat)
    (headers : List (String × String) := []) : CurlResponse :=
  ⟨status_code, data, headers⟩

/-- First-match lookup in an association list of headers, the way a
string-keyed mapping is queried by exact key. -/
def lookupHeader : List (String × String) → String → Option String
  | [], _ => none
  | (k, v) :: rest, key => if key = k then some v else lookupHeader rest key

/-- Modelled from the spec: headers are queryable by exact key;
absent keys fail the lookup (`none`). -/
def CurlResponse.getHeader (r : CurlResponse) (key : String) : Option String :=
  lookupHeader r.headers key

/-- A UTF-8 continuation byte: `0x80..0xBF`. -/
def isCont (b : Nat) : Bool := 0x80 ≤ b && b ≤ 0xBF

/-- UTF-8 decoder on byte lists, fuel-indexed so that it is structurally
recursive. Rejects truncated sequences, stray continuation bytes,
overlong encodings, surrogate code points and values above `0x10FFFF`.
The fuel only needs to exceed the number of decoded characters. -/
def utf8DecodeAux : Nat → List Nat → Option (List Char)
  | _, [] => some []
  | 0, _ :: _ => none
  | fuel + 1, b :: rest =>
    if b < 0x80 then
      match utf8DecodeAux fuel rest with
      | some cs => some (Char.ofNat b :: cs)
      | none => none
    else if b < 0xC2 then none
    else if b ≤ 0xDF then
      match rest with
      | b2 :: rest2 =>
        if isCont b2 then
          match utf8DecodeAux fuel rest2 with
          | some cs => some (Char.ofNat ((b - 0xC0) * 0x40 + (b2 - 0x80)) :: cs)
          | none => none
        else none
      | [] => none
    else if b ≤ 0xEF then
      match rest with
      | b2 :: b3 :: rest3 =>
        if isCont b2 && isCont b3 then
          let code := (b - 0xE0) * 0x1000 + (b2 - 0x80) * 0x40 + (b3 - 0x80)
          if code < 0x800 then none
          else if 0xD800 ≤ code && code ≤ 0xDFFF then none
          else
            match utf8DecodeAux fuel rest3 with
            | some cs => some (Char.ofNat code :: cs)
            | none => none
        else none
      | _ => none
    else if b ≤ 0xF4 then
      match rest with
      | b2 :: b3 :: b4 :: rest4 =>
        if isCont b2 && isCont b3 && isCont b4 then
          let code := (b - 0xF0) * 0x40000 + (b2 - 0x80) * 0x1000 +
            (b3 - 0x80) * 0x40 + (b4 - 0x80)
          if code < 0x10000 then none
          else if 0x10FFFF < code then none
          else
            match utf8DecodeAux fuel rest4 with
            | some cs => some (Char.ofNat code :: cs)
            | none => none
        else none
      | _ => none
    else none

/-- Decode a byte sequence as UTF-8; `none` when the bytes are not
valid UTF-8. -/
def utf8DecodeChars (bs : List Nat) : Option (List Char) :=
  utf8DecodeAux bs.length bs

/-- Modelled from the spec: the `text` accessor of the missing
`cylibcurl` response type returns the UTF-8 decoding of `data`; the
spec leaves the behaviour on invalid UTF-8 open, modelled here as a
decode failure (`none`). -/
def CurlResponse.text (r : CurlResponse) : Option String :=
  (utf8DecodeChars r.data).map String.mk

/-- The UTF-8 code units of an ASCII string, for stating concrete byte
payloads of the tests (every character below `0x80` is its own byte). -/
def asciiBytes (s : String) : List Nat := s.data.map Char.toNat

/-- A parsed JSON value. Numbers carry a decimal mantissa and a power
of ten, so `42` is `num 42 0` and `1.5` is `num 15 (-1)`. -/
inductive JValue where
  | null
  | bool (b : Bool)
  | num (mantissa : Int) (exp10 : Int)
  | str (s : String)
  | arr (elems : List JValue)
  | obj (members : List (String × JValue))
deriving Repr

/-- Entry of a JSON object by exact key (first match). -/
def JValue.getKey : JValue → String → Option JValue
  | .obj ms, key => lookupAssoc ms key
  | _, _ => none
where
  lookupAssoc : List (String × JValue) → String → Option JValue
    | [], _ => none
    | (k, v) :: rest, key => if key = k then some v else lookupAssoc rest key

/-- Drop leading JSON whitespace (space, tab, newline, carriage return). -/
def skipWs (cs : List Char) : List Char :=
  cs.dropWhile fun c => c = ' ' || c = '\t' || c = '\n' || c = '\r'

/-- Value of a decimal digit character. -/
def digitVal (c : Char) : Nat := c.toNat - 0x30

/-- Split the longest prefix of decimal digits off a character list. -/
def splitDigits (cs : List Char) : List Char × List Char :=
  cs.span Char.isDigit

/-- Read a digit list as a natural number, left to right. -/
def digitsToNat (acc : Nat) : List Char → Nat
  | [] => acc
  | c :: cs => digitsToNat (acc * 10 + digitVal c) cs

/-- Value of one hexadecimal digit character, if any. -/
def hexDigit (c : Char) : Option Nat :=
  let n := c.toNat
  if 0x30 ≤ n && n ≤ 0x39 then some (n - 0x30)
  else if 0x61 ≤ n && n ≤ 0x66 then some (n - 0x57)
  else if 0x41 ≤ n && n ≤ 0x46 then some (n - 0x37)
  else none

/-- Read exactly four hexadecimal digits. -/
def parseHex4 : List Char → Option (Nat × List Char)
  | c1 :: c2 :: c3 :: c4 :: rest =>
    match hexDigit c1, hexDigit c2, hexDigit c3, hexDigit c4 with
    | some h1, some h2, some h3, some h4 =>
      some (((h1 * 16 + h2) * 16 + h3) * 16 + h4, rest)
    | _, _, _, _ => none
  | _ => none

/-- Prepend a character to the string part of a partial parse. -/
def consChar (c : Char) :
    Option (List Char × List Char) → Option (List Char × List Char)
  | some (cs, rest) => some (c :: cs, rest)
  | none => none

/-- Body of a JSON string, entered just after the opening quote;
returns the decoded characters and the input after the closing quote.
Handles the escapes of the JSON grammar, including surrogate pairs in
`\uXXXX` escapes; control characters and lone surrogates are rejected.
Fuel-indexed; each step consumes at least one input character. -/
def strBody : Nat → List Char → Option (List Char × List Char)
  | _, [] => none
  | 0, _ :: _ => none
  | fuel + 1, c :: rest =>
    if c = '"' then some ([], rest)
    else if c = '\\' then
      match rest with
      | e :: r =>
        if e = '"' then consChar '"' (strBody fuel r)
        else if e = '\\' then consChar '\\' (strBody fuel r)
        else if e = '/' then consChar '/' (strBody fuel r)
        else if e = 'b' then consChar '\x08' (strBody fuel r)
        else if e = 'f' then consChar '\x0c' (strBody fuel r)
        else if e = 'n' then consChar '\n' (strBody fuel r)
        else if e = 'r' then consChar '\r' (strBody fuel r)
        else if e = 't' then consChar '\t' (strBody fuel r)
        else if e = 'u' then
          match parseHex4 r with
          | some (n, r2) =>
            if 0xD800 ≤ n && n ≤ 0xDBFF then
              match r2 with
              | '\\' :: 'u' :: r3 =>
                match parseHex4 r3 with
                | some (n2, r4) =>
                  if 0xDC00 ≤ n2 && n2 ≤ 0xDFFF then
                    consChar
                      (Char.ofNat (0x10000 + (n - 0xD800) * 0x400 + (n2 - 0xDC00)))
                      (strBody fuel r4)
                  else none
                | none => none
              | _ => none
            else if 0xDC00 ≤ n && n ≤ 0xDFFF then none
            else consChar (Char.ofNat n) (strBody fuel r2)
          | none => none
        else none
      | [] => none
    else if c.toNat < 0x20 then none
    else consChar c (strBody fuel rest)

/-- Optional fraction part of a JSON number: returns the fraction value,
the number of fraction digits, and the rest of the input. An absent
fraction yields `(0, 0, cs)`; a dot with no digit is an error. -/
def parseFrac : List Char → Option (Nat × Nat × List Char)
  | '.' :: rest =>
    match splitDigits rest with
    | ([], _) => none
    | (ds, rest2) => some (digitsToNat 0 ds, ds.length, rest2)
  | cs => some (0, 0, cs)

/-- Optional exponent part of a JSON number: a signed decimal exponent.
An absent exponent yields `0`. -/
def parseExp : List Char → Option (Int × List Char)
  | c :: rest =>
    if c = 'e' || c = 'E' then
      let (negE, rest1) : Bool × List Char :=
        match rest with
        | '+' :: r => (false, r)
        | '-' :: r => (true, r)
        | _ => (false, rest)
      match splitDigits rest1 with
      | ([], _) => none
      | (ds, rest2) =>
        let e : Int := Int.ofNat (digitsToNat 0 ds)
        some (if negE then -e else e, rest2)
    else some (0, c :: rest)
  | [] => some (0, [])

/-- Assemble a JSON number from its parts: sign, integer part, then the
fraction and exponent read from the input. -/
def parseNumTail (neg : Bool) (ip : Nat) (cs : List Char) :
    Option (JValue × List Char) :=
  match parseFrac cs with
  | none => none
  | some (fv, fl, cs2) =>
    match parseExp cs2 with
    | none => none
    | some (e, cs3) =>
      let mag : Int := Int.ofNat (ip * 10 ^ fl + fv)
      some (.num (if neg then -mag else mag) (e - Int.ofNat fl), cs3)

/-- A JSON number: optional minus sign, an integer part without leading
zeros, then optional fraction and exponent. -/
def parseNumber (cs : List Char) : Option (JValue × List Char) :=
  let (neg, cs1) : Bool × List Char :=
    match cs with
    | '-' :: rest => (true, rest)
    | _ => (false, cs)
  match cs1 with
  | c :: rest =>
    if c = '0' then parseNumTail neg 0 rest
    else if c.isDigit then
      let (ds, rest2) := splitDigits rest
      parseNumTail neg (digitsToNat (digitVal c) ds) rest2
    else none
  | [] => none

/-- The comma-separated elements of a JSON array, entered after `[` on a
non-empty array; the value parser for the elements is passed in. Each
element is followed by `,` (more elements) or `]` (done); a trailing
comma is rejected because the recursive call again demands a value. -/
def arrItemsLoop (pv : List Char → Option (JValue × List Char)) :
    Nat → List Char → Option (List JValue × List Char)
  | 0, _ => none
  | fuel + 1, cs =>
    match pv cs with
    | some (v, r) =>
      match skipWs r with
      | ',' :: r2 =>
        match arrItemsLoop pv fuel r2 with
        | some (vs, r3) => some (v :: vs, r3)
        | none => none
      | ']' :: r2 => some ([v], r2)
      | _ => none
    | none => none

/-- The comma-separated members of a JSON object, entered after `\x7b`
on a non-empty object: each member is a quoted string key, `:`, then a
value parsed by the parser passed in. -/
def objItemsLoop (pv : List Char → Option (JValue × List Char)) :
    Nat → List Char → Option (List (String × JValue) × List Char)
  | 0, _ => none
  | fuel + 1, cs =>
    match skipWs cs with
    | '"' :: r =>
      match strBody (r.length + 1) r with
      | some (kcs, r2) =>
        match skipWs r2 with
        | ':' :: r3 =>
          match pv r3 with
          | some (v, r4) =>
            match skipWs r4 with
            | ',' :: r5 =>
              match objItemsLoop pv fuel r5 with
              | some (ms, r6) => some ((String.mk kcs, v) :: ms, r6)
              | none => none
            | '\x7d' :: r5 => some ([(String.mk kcs, v)], r5)
            | _ => none
          | none => none
        | _ => none
      | none => none
    | _ => none

/-- One JSON value, after skipping leading whitespace: an object, array,
string, number, or one of the literals `true`, `false`, `null`. The
fuel bounds the nesting depth of arrays and objects. -/
def parseValueAux : Nat → List Char → Option (JValue × List Char)
  | 0, _ => none
  | fuel + 1, cs =>
    match skipWs cs with
    | [] => none
    | c :: rest =>
      if c = '"' then
        match strBody (rest.length + 1) rest with
        | some (scs, r) => some (.str (String.mk scs), r)
        | none => none
      else if c = '\x7b' then
        match skipWs rest with
        | '\x7d' :: r => some (.obj [], r)
        | _ =>
          match objItemsLoop (parseValueAux fuel) (rest.length + 1) rest with
          | some (ms, r) => some (.obj ms, r)
          | none => none
      else if c = '[' then
        match skipWs rest with
        | ']' :: r => some (.arr [], r)
        | _ =>
          match arrItemsLoop (parseValueAux fuel) (rest.length + 1) rest with
          | some (vs, r) => some (.arr vs, r)
          | none => none
      else if c = 't' then
        match rest with
        | 'r' :: 'u' :: 'e' :: r => some (.bool true, r)
        | _ => none
      else if c = 'f' then
        match rest with
        | 'a' :: 'l' :: 's' :: 'e' :: r => some (.bool false, r)
        | _ => none
      else if c = 'n' then
        match rest with
        | 'u' :: 'l' :: 'l' :: r => some (.null, r)
        | _ => none
      else if c = '-' || c.isDigit then parseNumber (c :: rest)
      else none

/-- Modelled from the spec: parse a complete JSON document the way the
missing `cylibcurl` response type parses structured JSON — one value,
possibly surrounded by whitespace, with nothing after it; anything else
is a parse error, signalled through `Except.error`. -/
def parseJson (cs : List Char) : Except String JValue :=
  match parseValueAux (cs.length + 1) cs with
  | some (v, rest) =>
    match skipWs rest with
    | [] => .ok v
    | _ => .error "Extra data"
  | none => .error "Expecting value"

/-- Modelled from the spec: the `json()` method of the missing
`cylibcurl` response type decodes `data` and parses it as JSON,
returning the parsed value, and fails with an error result (never a
silent default) when the bytes are not valid JSON. -/
def CurlResponse.json (r : CurlResponse) : Except String JValue :=
  match utf8DecodeChars r.data with
  | none => .error "Expecting value"
  | some cs => parseJson cs

/-- Whether a byte payload is valid JSON for this binding: it decodes
as UTF-8 and then parses as a complete JSON document. -/
def validJsonBytes (bs : List Nat) : Bool :=
  match utf8DecodeChars bs with
  | none => false
  | some cs =>
    match parseJson cs with
    | .ok _ => true
    | .error _ => false

/-- Modelled from the spec: the opaque transfer handle of the missing
`cylibcurl` extension module (the spec's `Handle`, exposed as `Curl`).
No behaviour beyond construction is specified. -/
structure Curl where
  session : Unit
deriving Repr, DecidableEq

/-- Modelled from the spec: the constructor `Curl()` always succeeds and
yields a non-null instance; `none` would stand for a null result or a
construction failure. -/
def Curl.new : Option Curl := some ⟨()⟩

/-- An operation of the binding surface of a response: reading one of
the four attributes or calling `json()`. -/
inductive SurfaceOp where
  | readStatus
  | readData
  | readText
  | readHeaders
  | callJson
deriving Repr, DecidableEq

/-- The observable result of one surface operation. -/
inductive ObsValue where
  | natVal (n : Nat)
  | bytesVal (bs : List Nat)
  | textVal (s : Option String)
  | headersVal (hs : List (String × String))
  | jsonVal (j : Except String JValue)
deriving Repr

/-- Modelled from the spec: running one surface operation on a response
returns its observable result together with the response state after
the call; the spec states a `Response` is never mutated after
construction, so every operation leaves the state unchanged. -/
def runOp (r : CurlResponse) : SurfaceOp → ObsValue × CurlResponse
  | .readStatus => (.natVal r.status_code, r)
  | .readData => (.bytesVal r.data, r)
  | .readText => (.textVal r.text, r)
  | .readHeaders => (.headersVal r.headers, r)
  | .callJson => (.jsonVal r.json, r)

/-- The response state after running a sequence of surface operations. -/
def runOps (r : CurlResponse) : List SurfaceOp → CurlResponse
  | [] => r
  | op :: ops => runOps (runOp r op).2 ops

/-- The environment the package is imported in: whether the compiled
extension module `cylibcurl` is present. -/
structure PyEnv where
  cylibcurlPresent : Bool
deriving Repr, DecidableEq

/-- The state of the `libcurl` package after a successful import, as
`src/libcurl/__init__.py` builds it: the version string, the public
name list `__all__`, and the fact that `Curl` and `CurlResponse` are
bound from the compiled module `cylibcurl`. -/
structure LibcurlPackage where
  version : String
  allNames : List String
  curlFromCylibcurl : Bool
  curlResponseFromCylibcurl : Bool
deriving Repr, DecidableEq

/-- The package initializer `src/libcurl/__init__.py`: sets `__version__`, performs
`from .cylibcurl import Curl, CurlResponse` — which signals an
error on importing when the compiled module is absent — and declares
`__all__ = ["Curl", "CurlResponse"]`. -/
def libcurlImport (env : PyEnv) : Except String LibcurlPackage :=
  if env.cylibcurlPresent then .ok loadedPackage
  else .error "ImportError: cannot import cylibcurl"
where
  /-- The package state a successful import yields. -/
  loadedPackage : LibcurlPackage :=
    { version := "0.1.0"
      allNames := ["Curl", "CurlResponse"]
      curlFromCylibcurl := true
      curlResponseFromCylibcurl := true }

/-! Theorems -/

/-- Looking up a key of an association list with pairwise distinct keys
returns the value stored with it. -/
theorem lookupHeader_eq_of_mem :
    ∀ (hs : List (String × String)) (k v : String),
      (k, v) ∈ hs → (hs.map Prod.fst).Nodup → lookupHeader hs k = some v := by
  intro hs
  induction hs with
  | nil => intro k v hmem _; cases hmem
  | cons p rest ih =>
    intro k v hmem hnodup
    obtain ⟨k', v'⟩ := p
    simp only [List.map_cons, List.nodup_cons] at hnodup
    rcases List.mem_cons.mp hmem with h | h
    · obtain ⟨rfl, rfl⟩ := Prod.mk.injEq k v k' v' ▸ h
      simp [lookupHeader]
    · have hk : k ≠ k' := by
        rintro rfl
        exact hnodup.1 (List.mem_map_of_mem Prod.fst h)
      simp only [lookupHeader, if_neg hk]
      exact ih k v h hnodup.2

/-- Every operation of the binding surface leaves the response state
unchanged. -/
theorem runOp_snd (r : CurlResponse) (op : SurfaceOp) : (runOp r op).2 = r := by
  cases op <;> rfl

/-- Running any sequence of surface operations leaves the response
state unchanged. -/
theorem runOps_eq (ops : List SurfaceOp) (r : CurlResponse) : runOps r ops = r := by
  induction ops generalizing r with
  | nil => rfl
  | cons op ops ih => rw [runOps, runOp_snd]; exact ih r

/-- C4: for every status code `s` and byte sequence `d` (and any
headers), the constructed response has `status_code == s` and
`data == d`; in particular `Response(200, b"Hello World")` yields
`status_code == 200` and `data == b"Hello World"`. -/
theorem response_stores_status_and_data (s : Nat) (d : List Nat)
    (hs : List (String × String)) :
    (makeResponse s d hs).status_code = s ∧ (makeResponse s d hs).data = d :=
  ⟨rfl, rfl⟩

/-- C5: a response constructed without a headers argument has the empty
mapping as its headers. -/
theorem response_headers_default_empty (s : Nat) (d : List Nat) :
    (makeResponse s d).headers = [] := rfl

/-- C6: for a response constructed with an explicit headers mapping
(pairwise distinct keys), each supplied header is queryable by its
exact key and yields the value supplied at construction. -/
theorem response_header_lookup (s : Nat) (d : List Nat)
    (hs : List (String × String)) (k v : String)
    (hmem : (k, v) ∈ hs) (hnodup : (hs.map Prod.fst).Nodup) :
    (makeResponse s d hs).getHeader k = some v :=
  lookupHeader_eq_of_mem hs k v hmem hnodup

/-- Witness for C6: `Response(404, b"Not Found",
headers=\x7b"Content-Type": "text/plain"\x7d)` yields
`headers["Content-Type"] == "text/plain"` (and `status_code == 404` by
construction). -/
theorem response_header_lookup_witness :
    (makeResponse 404 (asciiBytes "Not Found")
        [("Content-Type", "text/plain")]).getHeader "Content-Type"
      = some "text/plain" :=
  response_header_lookup 404 (asciiBytes "Not Found")
    [("Content-Type", "text/plain")] "Content-Type" "text/plain"
    (by simp) (by simp)

/-- C8: every response has a non-negative integer status code. -/
theorem response_status_nonneg (r : CurlResponse) :
    (0 : Int) ≤ (r.status_code : Int) := Int.natCast_nonneg r.status_code

/-- Decoding the UTF-8 bytes of ASCII characters gives those characters
back, for any sufficient fuel. -/
theorem utf8DecodeAux_ascii :
    ∀ (cs : List Char) (fuel : Nat), cs.length ≤ fuel →
      (∀ c ∈ cs, c.toNat < 0x80) →
      utf8DecodeAux fuel (cs.map Char.toNat) = some cs := by
  intro cs
  induction cs with
  | nil => intro fuel _ _; cases fuel <;> rfl
  | cons c cs ih =>
    intro fuel hlen hascii
    match fuel, hlen with
    | f + 1, hlen =>
      have hc : c.toNat < 0x80 := hascii c (List.mem_cons_self c cs)
      have hrec : utf8DecodeAux f (cs.map Char.toNat) = some cs :=
        ih f (Nat.le_of_succ_le_succ hlen)
          (fun x hx => hascii x (List.mem_cons_of_mem c hx))
      simp [utf8DecodeAux, hc, hrec, Char.ofNat_toNat]

/-- C3: the `text` accessor returns the UTF-8 decoding of the data
bytes; for any response whose data is the encoding of an ASCII string,
`text` is exactly that string (the spec leaves non-UTF-8 data open). -/
theorem response_text_utf8 (s : Nat) (str : String)
    (hs : List (String × String))
    (hascii : ∀ c ∈ str.data, c.toNat < 0x80) :
    (makeResponse s (asciiBytes str) hs).text = some str := by
  show ((utf8DecodeChars (str.data.map Char.toNat)).map String.mk) = some str
  rw [utf8DecodeChars, List.length_map,
    utf8DecodeAux_ascii str.data str.data.length le_rfl hascii]
  rfl

/-- Witness for C3: `Response(200, b"Hello World")` has
`text == "Hello World"`. -/
theorem response_text_utf8_witness :
    (makeResponse 200 (asciiBytes "Hello World")).text = some "Hello World" :=
  response_text_utf8 200 "Hello World" [] (by decide)

/-- C1: whenever the data bytes of a response are not valid JSON (they
fail to decode as UTF-8 or fail to parse as a JSON document), `json()`
returns an error result, never a silent default. -/
theorem response_json_error_on_invalid (r : CurlResponse)
    (h : validJsonBytes r.data = false) :
    ∃ e, r.json = Except.error e := by
  unfold validJsonBytes at h
  cases hd : utf8DecodeChars r.data with
  | none => exact ⟨"Expecting value", by simp only [CurlResponse.json, hd]⟩
  | some cs =>
    simp only [hd] at h
    cases hp : parseJson cs with
    | ok v => simp only [hp] at h; exact absurd h (by decide)
    | error e => exact ⟨e, by simp only [CurlResponse.json, hd, hp]⟩

/-- Witness for C1: `Response(200, b"invalid json").json()` fails with
an error. -/
theorem response_json_error_on_invalid_witness :
    validJsonBytes (asciiBytes "invalid json") = false ∧
      ∃ e, (makeResponse 200 (asciiBytes "invalid json")).json
        = Except.error e :=
  ⟨rfl, response_json_error_on_invalid
    (makeResponse 200 (asciiBytes "invalid json")) rfl⟩

/-- C2: whenever the data bytes of a response decode as UTF-8 text that
parses as a JSON document, `json()` returns exactly the parsed value. -/
theorem response_json_parses (r : CurlResponse) (cs : List Char) (v : JValue)
    (hdec : utf8DecodeChars r.data = some cs)
    (hparse : parseJson cs = Except.ok v) :
    r.json = Except.ok v := by
  simp only [CurlResponse.json, hdec, hparse]

/-- Witness for C2: `Response(200, b'\x7b"key": "value", "number":
42\x7d').json()` yields the object whose entry `key` is `"value"` and
whose entry `number` is `42`. -/
theorem response_json_parses_witness :
    (makeResponse 200
        (asciiBytes "\x7b\"key\": \"value\", \"number\": 42\x7d")).json
      = Except.ok (JValue.obj
          [("key", JValue.str "value"), ("number", JValue.num 42 0)]) ∧
      (JValue.obj [("key", JValue.str "value"),
          ("number", JValue.num 42 0)]).getKey "key"
        = some (JValue.str "value") ∧
      (JValue.obj [("key", JValue.str "value"),
          ("number", JValue.num 42 0)]).getKey "number"
        = some (JValue.num 42 0) :=
  ⟨response_json_parses
      (makeResponse 200
        (asciiBytes "\x7b\"key\": \"value\", \"number\": 42\x7d"))
      ("\x7b\"key\": \"value\", \"number\": 42\x7d".data)
      (JValue.obj [("key", JValue.str "value"), ("number", JValue.num 42 0)])
      rfl rfl,
    rfl, rfl⟩

/-- C7: a response is immutable: any sequence of surface operations
(attribute reads and `json()` calls) leaves the response unchanged, and
every attribute read afterwards returns the value fixed at
construction. -/
theorem response_immutable (r : CurlResponse) (ops : List SurfaceOp) :
    runOps r ops = r ∧
      ∀ op, (runOp (runOps r ops) op).1 = (runOp r op).1 :=
  ⟨runOps_eq ops r, fun op => by rw [runOps_eq ops r]⟩

/-- C9: the transfer handle constructor always succeeds and yields a
non-null instance. -/
theorem curl_new_succeeds : ∃ c : Curl, Curl.new = some c := ⟨⟨()⟩, rfl⟩

/-- C10: importing the package succeeds exactly when the compiled
extension module `cylibcurl` is present, and then the public surface is
exactly the two names `Curl` and `CurlResponse`, both re-exported from
`cylibcurl`. -/
theorem libcurl_import_surface (env : PyEnv) :
    ((libcurlImport env).isOk ↔ env.cylibcurlPresent = true) ∧
      ∀ pkg, libcurlImport env = Except.ok pkg →
        pkg.allNames = ["Curl", "CurlResponse"] ∧
          pkg.curlFromCylibcurl = true ∧
          pkg.curlResponseFromCylibcurl = true := by
  obtain ⟨present⟩ := env
  cases present <;>
    simp [libcurlImport, libcurlImport.loadedPackage, Except.isOk, Except.toBool]

/-- Witness for C10: with the compiled module present, the import
succeeds and exports exactly `Curl` and `CurlResponse` from it. -/
theorem libcurl_import_surface_witness :
    ((libcurlImport ⟨true⟩).isOk ↔ (⟨true⟩ : PyEnv).cylibcurlPresent = true) ∧
      (libcurlImport.loadedPackage.allNames = ["Curl", "CurlResponse"] ∧
        libcurlImport.loadedPackage.curlFromCylibcurl = true ∧
        libcurlImport.loadedPackage.curlResponseFromCylibcurl = true) :=
  ⟨(libcurl_import_surface ⟨true⟩).1,
    (libcurl_import_surface ⟨true⟩).2 libcurlImport.loadedPackage rfl⟩

end Libcurl
